import Mathlib

/-!
# Lexy binding execution engine: a shallow embedding

This file embeds the data model and operations of the Lexy document-processing
platform (collections, documents, transformers, indexes, bindings, filters,
and the binding execution engine) and proves the specified properties about
them.

The Python implementation of the engine (the `lexy` package) is not present in
the repository snapshot under verification; only its documentation, recorded
tutorial outputs, dashboard type declarations (`dashboard/src/types/*.ts`) and
notebook callers are.  Definitions below are therefore modelled from the
specification's contracts (sections 4.1-4.6 and 5) and, where the spec and the
repository's recorded outputs disagree, from the recorded outputs; each such
definition says so in its doc comment.
-/

/-- A scalar JSON value: string, integer, or boolean.  Matches the leaf cases
of `FilterValue` in `dashboard/src/types/filterTypes.ts`. -/
inductive Scalar where
  | str (s : String)
  | num (n : Int)
  | bool (b : Bool)
deriving DecidableEq

/-- A JSON-like value for document content and metadata: a scalar, a flat
array of scalars, a nested object, or null. -/
inductive Json where
  | scalar (v : Scalar)
  | arr (vs : List Scalar)
  | obj (fields : List (String × Json))
  | null

/-- A filter comparison value, per `FilterValue` in
`dashboard/src/types/filterTypes.ts`: a single scalar, an array of scalars,
or null. -/
inductive FilterValue where
  | scalar (v : Scalar)
  | list (vs : List Scalar)
  | null
deriving DecidableEq

/-- Filter condition operations, per the spec's Filter Evaluator contract:
"equality, comparison, containment, etc." plus an explicit presence test. -/
inductive FilterOperation where
  | equals
  | lessThan
  | lessThanOrEqual
  | greaterThan
  | greaterThanOrEqual
  | contains
  | inList
  | present
deriving DecidableEq

/-- One filter condition, per `FilterCondition` in
`dashboard/src/types/filterTypes.ts`: a dotted field path, an operation, a
comparison value and a negation flag. -/
structure FilterCondition where
  field : String
  operation : FilterOperation
  value : FilterValue
  negate : Bool

/-- How conditions combine, per `Filter.combination` in
`dashboard/src/types/filterTypes.ts`. -/
inductive FilterCombination where
  | AND
  | OR
deriving DecidableEq

/-- A filter: a list of conditions and a combination operator, per `Filter`
in `dashboard/src/types/filterTypes.ts` (named `DocFilter` here because Lean
reserves both `Filter` and `matches`). -/
structure DocFilter where
  conditions : List FilterCondition
  combination : FilterCombination

/-- Binding statuses, per the spec's data model and
`dashboard/src/types/bindingTypes.ts` (`status: string`, values
`ON | OFF | PENDING`). -/
inductive BindingStatus where
  | ON
  | OFF
  | PENDING
deriving DecidableEq

/-- A document: content plus arbitrary metadata, belonging to exactly one
collection, with a monotonically advancing `updated_at` stamp (used as the
source version for commit fencing). -/
structure Document where
  document_id : String
  collection_id : String
  content : String
  meta : Json
  updated_at : Nat

/-- Split a character list at each occurrence of `sep` (kernel-reducible
replacement for `String.splitOn`, which is defined by well-founded
recursion). -/
def splitSeg (sep : Char) (acc : List Char) : List Char → List (List Char)
  | [] => [acc.reverse]
  | c :: cs =>
    if c == sep then acc.reverse :: splitSeg sep [] cs
    else splitSeg sep (c :: acc) cs

/-- Split a string at each occurrence of the character `sep`. -/
def splitStr (s : String) (sep : Char) : List String :=
  (splitSeg sep [] s.data).map (fun cs => String.mk cs)

/-- Look up a key in a JSON object's field list. -/
def lookupField (fields : List (String × Json)) (k : String) : Option Json :=
  (fields.find? (fun kv => kv.1 == k)).map (fun kv => kv.2)

/-- Resolve a dotted path (already split into segments) inside a JSON value.
Returns `none` when the path does not resolve. -/
def resolvePath : List String → Json → Option Json
  | [], v => some v
  | k :: rest, .obj fields =>
    match lookupField fields k with
    | some v => resolvePath rest v
    | none => none
  | _ :: _, _ => none

/-- Modelled from the spec (Filter Evaluator, section 4.1; the Python
evaluator is absent from the snapshot): each condition evaluates
`document.content` or a dotted path into `document.meta`.  An unresolvable
path yields `none`. -/
def resolveField (doc : Document) (path : String) : Option Json :=
  if path == "content" then
    some (.scalar (.str doc.content))
  else
    match splitStr path '.' with
    | "meta" :: rest => resolvePath rest doc.meta
    | _ => none

/-- Boolean test: does the character list `needle` occur as a prefix of
`hay`? -/
def headMatch : List Char → List Char → Bool
  | [], _ => true
  | _ :: _, [] => false
  | a :: as, b :: bs => a == b && headMatch as bs

/-- Boolean test: does the character list `needle` occur contiguously
anywhere inside `hay`? -/
def subMatch (needle : List Char) : List Char → Bool
  | [] => needle.isEmpty
  | b :: bs => headMatch needle (b :: bs) || subMatch needle bs

/-- Substring test on strings. -/
def strContains (hay needle : String) : Bool :=
  subMatch needle.data hay.data

/-- Is the operation one of the numeric/string comparison operators? -/
def isCompareOp : FilterOperation → Bool
  | .lessThan | .lessThanOrEqual | .greaterThan | .greaterThanOrEqual => true
  | _ => false

/-- Are a resolved document value and a filter comparison value of matching
comparable types (number with number, string with string)?  Comparison
operators fail closed on anything else. -/
def comparableVals : Json → FilterValue → Bool
  | .scalar (.num _), .scalar (.num _) => true
  | .scalar (.str _), .scalar (.str _) => true
  | _, _ => false

/-- Modelled from the spec (section 4.1): evaluate one operation against a
resolved document value and the condition's comparison value.  Any type
combination an operation does not understand evaluates to `false` (fail
closed). -/
def evalOp : FilterOperation → Json → FilterValue → Bool
  | .equals, .scalar a, .scalar b => a == b
  | .equals, .null, .null => true
  | .equals, _, _ => false
  | .lessThan, .scalar (.num a), .scalar (.num b) => a < b
  | .lessThan, .scalar (.str a), .scalar (.str b) => a < b
  | .lessThan, _, _ => false
  | .lessThanOrEqual, .scalar (.num a), .scalar (.num b) => a ≤ b
  | .lessThanOrEqual, .scalar (.str a), .scalar (.str b) => a ≤ b
  | .lessThanOrEqual, _, _ => false
  | .greaterThan, .scalar (.num a), .scalar (.num b) => b < a
  | .greaterThan, .scalar (.str a), .scalar (.str b) => b < a
  | .greaterThan, _, _ => false
  | .greaterThanOrEqual, .scalar (.num a), .scalar (.num b) => b ≤ a
  | .greaterThanOrEqual, .scalar (.str a), .scalar (.str b) => b ≤ a
  | .greaterThanOrEqual, _, _ => false
  | .contains, .scalar (.str a), .scalar (.str b) => strContains a b
  | .contains, .arr xs, .scalar b => xs.contains b
  | .contains, _, _ => false
  | .inList, .scalar a, .list bs => bs.contains a
  | .inList, _, _ => false
  | .present, _, _ => true

/-- Modelled from the spec (section 4.1): evaluate one condition against a
document.  A path that does not resolve is treated as non-matching (rather
than raising) for every operation except the explicit presence test, whose
negated form tests for absence; a comparison over mismatched types fails
closed to non-match. -/
def evalCondition (doc : Document) (c : FilterCondition) : Bool :=
  match resolveField doc c.field with
  | none =>
    match c.operation with
    | .present => c.negate
    | _ => false
  | some v =>
    if c.operation = .present then
      !c.negate
    else if isCompareOp c.operation && !comparableVals v c.value then
      false
    else
      let b := evalOp c.operation v c.value
      if c.negate then !b else b

/-- Modelled from the spec (Filter Evaluator contract, section 4.1):
`matches(filter, document) -> bool`.  A null (absent) filter always matches;
conditions combine via `and` (all must pass; empty list matches) or `or`
(any must pass; empty list does not match). -/
def filterMatches (f : Option DocFilter) (doc : Document) : Bool :=
  match f with
  | none => true
  | some f =>
    match f.combination with
    | .AND => f.conditions.all (fun c => evalCondition doc c)
    | .OR => f.conditions.any (fun c => evalCondition doc c)

/-- One index field's type descriptor, per `IndexFieldDetail` in
`dashboard/src/types/indexTypes.ts`: a type name plus an `optional` flag
(a field is required unless marked optional). -/
structure IndexFieldDetail where
  ftype : String
  optional : Bool

/-- An index definition: identifier plus declared schema (field name to
field-type descriptor), per `Index` in `dashboard/src/types/indexTypes.ts`. -/
structure IndexDef where
  index_id : String
  index_fields : List (String × IndexFieldDetail)

/-- A binding: one collection, one transformer, one index, an optional
filter, optional `lexy_index_fields` transformer params, and a status, per
`Binding` in `dashboard/src/types/bindingTypes.ts`. -/
structure BindingDef where
  binding_id : Nat
  collection_id : String
  transformer_id : String
  index_id : String
  docFilter : Option DocFilter
  lexy_index_fields : Option (List String)
  status : BindingStatus

/-- A transformer's output: a single record or a list of records (one
record = mapping of field name to value), per the spec's Transformer
contract. -/
inductive TransformOutput where
  | single (record : List (String × Json))
  | many (records : List (List (String × Json)))

/-- The records of a transformer output, as a list. -/
def TransformOutput.records : TransformOutput → List (List (String × Json))
  | .single r => [r]
  | .many rs => rs

/-- Field names of the index schema. -/
def schemaNames (idx : IndexDef) : List String :=
  idx.index_fields.map (fun f => f.1)

/-- Field names the index schema declares as required (not optional). -/
def requiredNames (idx : IndexDef) : List String :=
  (idx.index_fields.filter (fun f => !f.2.optional)).map (fun f => f.1)

/-- Modelled from the spec (Index Field Mapper, section 4.3): project one
transformer output record onto the binding's target fields.  Only fields in
`binding.transformer_params.lexy_index_fields` (or, if unset, all schema
fields) are kept; unknown fields are dropped silently; a record missing a
required schema field is invalid and yields `none` (skipped, without
aborting the batch). -/
def projectRecord (b : BindingDef) (idx : IndexDef) (record : List (String × Json)) :
    Option (List (String × Json)) :=
  let allowed := match b.lexy_index_fields with
    | some fs => fs
    | none => schemaNames idx
  let projected := record.filter
    (fun kv => allowed.contains kv.1 && (schemaNames idx).contains kv.1)
  if (requiredNames idx).all (fun n => projected.any (fun kv => kv.1 == n)) then
    some projected
  else
    none

/-- Modelled from the spec (Index Field Mapper contract, section 4.3):
`map_output(binding, transformer_output) -> list[IndexRecordDraft]` —
project every record of the output, skipping invalid ones. -/
def map_output (b : BindingDef) (idx : IndexDef) (output : TransformOutput) :
    List (List (String × Json)) :=
  output.records.filterMap (projectRecord b idx)

/-- A draft index record: projected field values keyed by the originating
document, the producing binding, and an ordinal within the fan-out (the
upsert key of section 5). -/
structure IndexRecordDraft where
  document_id : String
  binding_id : Nat
  ordinal : Nat
  fields : List (String × Json)

/-- Key the projected records of one invocation by (document, binding,
ordinal), starting at ordinal `i`. -/
def mkDraftsFrom (doc : String) (bnd : Nat) (i : Nat) :
    List (List (String × Json)) → List IndexRecordDraft
  | [] => []
  | fs :: rest => ⟨doc, bnd, i, fs⟩ :: mkDraftsFrom doc bnd (i + 1) rest

/-- Modelled from the spec (sections 4.3 and 5): each draft of one
invocation carries the originating document identifier and binding
identifier for upsert keying, with ordinals `0, 1, ...` distinguishing the
records of a one-to-many fan-out. -/
def draftsFor (doc : String) (bnd : Nat) (recs : List (List (String × Json))) :
    List IndexRecordDraft :=
  mkDraftsFrom doc bnd 0 recs

/-- One committed row in an index table: the upsert key (document, binding,
ordinal) plus the index it lives in, the source version it was committed
at, and the projected field values. -/
structure IndexRecordRow where
  index_id : String
  document_id : String
  binding_id : Nat
  ordinal : Nat
  version : Nat
  fields : List (String × Json)

/-- The durable per-(document, binding) version marker used for commit
fencing (section 5: "a monotonic version number compared at commit
time"). -/
structure FenceEntry where
  document_id : String
  binding_id : Nat
  version : Nat

/-- The engine's persistent state: the committed index rows and the
per-pair fence markers. -/
structure EngineState where
  rows : List IndexRecordRow
  fence : List FenceEntry

/-- Does a row belong to the (document, binding) pair? -/
def pairKey (r : IndexRecordRow) (doc : String) (bnd : Nat) : Bool :=
  r.document_id == doc && r.binding_id == bnd

/-- The committed rows of one (document, binding) pair. -/
def rowsFor (s : EngineState) (doc : String) (bnd : Nat) : List IndexRecordRow :=
  s.rows.filter (fun r => pairKey r doc bnd)

/-- The fence marker of one (document, binding) pair, if any commit has
succeeded for it. -/
def fenceLookup (fence : List FenceEntry) (doc : String) (bnd : Nat) : Option Nat :=
  (fence.find? (fun e => e.document_id == doc && e.binding_id == bnd)).map
    (fun e => e.version)

/-- Is a commit at source version `v` stale for the pair, i.e. not newer
than the pair's fence marker? -/
def stale (fence : List FenceEntry) (doc : String) (bnd : Nat) (v : Nat) : Bool :=
  match fenceLookup fence doc bnd with
  | some f => decide (v ≤ f)
  | none => false

/-- Outcome of presenting one transform result to the engine. -/
inductive CommitOutcome where
  | applied
  | staleRejected
  | discardedOff
  | failed
  | skipped
  | notScheduled
deriving DecidableEq

/-- Build the committed rows of one invocation from its records, keyed by
(document, binding, ordinal) and tagged with the source version. -/
def mkRowsFrom (idx doc : String) (bnd v i : Nat) :
    List (List (String × Json)) → List IndexRecordRow
  | [] => []
  | fs :: rest => ⟨idx, doc, bnd, i, v, fs⟩ :: mkRowsFrom idx doc bnd v (i + 1) rest

/-- The full committed row set of one invocation (ordinals from 0). -/
def mkRows (idx doc : String) (bnd v : Nat) (recs : List (List (String × Json))) :
    List IndexRecordRow :=
  mkRowsFrom idx doc bnd v 0 recs

/-- Replace the pair's rows with the new set and advance its fence marker,
in one transaction. -/
def applyCommit (s : EngineState) (idx doc : String) (bnd v : Nat)
    (recs : List (List (String × Json))) : EngineState :=
  { rows := s.rows.filter (fun r => !pairKey r doc bnd) ++ mkRows idx doc bnd v recs
    fence := ⟨doc, bnd, v⟩ ::
      s.fence.filter (fun e => !(e.document_id == doc && e.binding_id == bnd)) }

/-- Modelled from the spec (sections 4.4 and 5; the Python engine is absent
from the snapshot): commit one transform result for a (document, binding)
pair.  The engine checks binding status at commit time and discards results
for an `OFF` binding; a commit whose source version is not newer than the
pair's fence marker is rejected as stale; an empty record set leaves the
pair `FAILED` with no partial commit (old rows are deleted only after a new
invocation succeeds, never before); otherwise the pair's old rows are
replaced by the new set atomically and the fence advances. -/
def commit (s : EngineState) (idx doc : String) (bnd v : Nat)
    (status : BindingStatus) (recs : List (List (String × Json))) :
    CommitOutcome × EngineState :=
  if status = .OFF then
    (.discardedOff, s)
  else if stale s.fence doc bnd v then
    (.staleRejected, s)
  else if recs.isEmpty then
    (.failed, s)
  else
    (.applied, applyCommit s idx doc bnd v recs)

/-- Modelled from the spec (section 4.4, transitions): handle one document
create/update event against one binding.  A binding that is not `ON` gets
no job; a filter miss deletes the pair's existing rows and moves it to
`SKIPPED`; a filter hit runs the transformer, maps its output and commits
at the document's `updated_at` version. -/
def handle_document_event (s : EngineState) (b : BindingDef) (idx : IndexDef)
    (d : Document) (output : TransformOutput) : CommitOutcome × EngineState :=
  if b.status = .ON then
    if filterMatches b.docFilter d then
      commit s idx.index_id d.document_id b.binding_id d.updated_at b.status
        (map_output b idx output)
    else
      (.skipped,
        { s with rows := s.rows.filter (fun r => !pairKey r d.document_id b.binding_id) })
  else
    (.notScheduled, s)

/-- Modelled from the spec (Consistency Reconciler contract, section 4.6):
`cleanup_document(document_id)` deletes all IndexRecords keyed to a deleted
document across all bindings and indexes, regardless of binding status. -/
def cleanup_document (s : EngineState) (doc : String) : EngineState :=
  { rows := s.rows.filter (fun r => !(r.document_id == doc))
    fence := s.fence.filter (fun e => !(e.document_id == doc)) }

/-- Modelled from the spec (section 4.6): `backfill` enumerates all
documents of the binding's collection, applies the filter, and submits
jobs only for matches. -/
def backfill (docs : List Document) (b : BindingDef) : List Document :=
  docs.filter (fun d => filterMatches b.docFilter d)

/-- Modelled from the spec (binding lifecycle) and the repository's recorded
behavior: `create_binding` itself is absent from the snapshot; its observable
behavior is recorded in `src/docs/docs/tutorial.md` (the binding returned at
creation time prints with `status=ON`) and in `src/unnamed/part_018`, whose
note states that running the initial batch asynchronously and returning the
binding in "pending" state is future work.  Accordingly, creation runs the
backfill synchronously over the collection's existing documents and returns
the binding already `ON`.  Returns the created binding and the list of
documents for which backfill jobs were run. -/
def create_binding (docs : List Document) (bid : Nat)
    (cid tid iid : String) (flt : Option DocFilter) : BindingDef × List Document :=
  let b : BindingDef :=
    { binding_id := bid, collection_id := cid, transformer_id := tid,
      index_id := iid, docFilter := flt, lexy_index_fields := none,
      status := .ON }
  (b, backfill docs b)

/-- The synchronous transformer registry: transformer identifier to
invocable unit. -/
def Registry := List (String × (Document → TransformOutput))

/-- Resolve a transformer identifier in the registry. -/
def registryLookup (reg : Registry) (tid : String) :
    Option (Document → TransformOutput) :=
  (reg.find? (fun kv => kv.1 == tid)).map (fun kv => kv.2)

/-- An ad-hoc document built from a plain mapping of `content` and `meta`,
stored in no collection. -/
def adHocDocument (content : String) (meta : Json) : Document :=
  { document_id := "", collection_id := "", content := content, meta := meta,
    updated_at := 0 }

/-- The value returned by the synchronous transform-test path: a mapping
with the task identifier and the transformer's result, per the recorded
output in `src/docs/docs/tutorials/custom-transformers.md`. -/
structure TransformResponse where
  task_id : String
  result : TransformOutput

/-- Modelled from the spec (Task Execution Adapter `run_sync`, section 4.5)
and the recorded output in `src/docs/docs/tutorials/custom-transformers.md`:
`transform_document` accepts an ad-hoc document supplied as a plain dict of
content plus meta, resolves the transformer, runs it synchronously, and
returns `{task_id, result}`.  It consults no binding, index, or stored
collection. -/
def transform_document (reg : Registry) (tid : String) (content : String)
    (meta : Json) : Option TransformResponse :=
  match registryLookup reg tid with
  | none => none
  | some f => some { task_id := "task-" ++ tid, result := f (adHocDocument content meta) }

/-- A derived record identity for query results, built from the upsert
key. -/
def recordIdOf (r : IndexRecordRow) : String :=
  r.document_id ++ "-" ++ toString r.binding_id ++ "-" ++ toString r.ordinal

/-- One row of an index query result, per the recorded outputs in
`src/docs/docs/tutorial.md`: the originating document id, the record id,
the source document's content and metadata, and a numeric distance. -/
structure QueryResult where
  document_id : String
  meta : Json
  index_record_id : String
  content : String
  distance : Int

/-- Query results ordered by ascending distance. -/
def distLE (a b : QueryResult) : Prop :=
  a.distance ≤ b.distance

instance : DecidableRel distLE :=
  fun a b => Int.decLe a.distance b.distance

instance : IsTotal QueryResult distLE :=
  ⟨fun a b => Int.le_total a.distance b.distance⟩

instance : IsTrans QueryResult distLE :=
  ⟨fun _ _ _ h₁ h₂ => le_trans h₁ h₂⟩

/-- The query row built from one index record and its source document. -/
def mkQueryResult (dist : IndexRecordRow → Int) (r : IndexRecordRow)
    (d : Document) : QueryResult :=
  { document_id := r.document_id, meta := d.meta, index_record_id := recordIdOf r,
    content := d.content, distance := dist r }

/-- Modelled from the spec and the recorded outputs in
`src/docs/docs/tutorial.md` (`query_index` / `index.query`; the server-side
implementation is absent from the snapshot): score every record of the
queried index (`dist` abstracts the distance of a record's stored embedding
from the query embedding), join each with its source document, and return
the rows sorted by ascending distance, truncated to at most `k` rows. -/
def query_index (dist : IndexRecordRow → Int) (docStore : List Document)
    (s : EngineState) (iid : String) (k : Nat) : List QueryResult :=
  let scored := (s.rows.filter (fun r => r.index_id == iid)).filterMap
    (fun r => (docStore.find? (fun d => d.document_id == r.document_id)).map
      (fun d => mkQueryResult dist r d))
  (List.insertionSort distLE scored).take k

/-- Filtering by `p` after keeping only elements failing `p` leaves
nothing. -/
theorem filter_not_filter (p : α → Bool) (xs : List α) :
    (xs.filter (fun a => !p a)).filter p = [] := by
  induction xs with
  | nil => rfl
  | cons x xs ih =>
    by_cases h : p x <;> simp [List.filter_cons, h, ih]

/-- Every row built by `mkRowsFrom` carries the pair's keys, the source
version, and its ordinal position. -/
theorem mem_mkRowsFrom {idx doc : String} {bnd v : Nat} :
    ∀ {i : Nat} {recs : List (List (String × Json))} {r : IndexRecordRow},
      r ∈ mkRowsFrom idx doc bnd v i recs →
      r.index_id = idx ∧ r.document_id = doc ∧ r.binding_id = bnd ∧ r.version = v := by
  intro i recs
  induction recs generalizing i with
  | nil => intro r h; cases h
  | cons fs rest ih =>
    intro r h
    cases h with
    | head => exact ⟨rfl, rfl, rfl, rfl⟩
    | tail _ h => exact ih h

/-- `mkRowsFrom` yields one row per record. -/
theorem length_mkRowsFrom (idx doc : String) (bnd v : Nat) :
    ∀ (i : Nat) (recs : List (List (String × Json))),
      (mkRowsFrom idx doc bnd v i recs).length = recs.length := by
  intro i recs
  induction recs generalizing i with
  | nil => rfl
  | cons fs rest ih => simp [mkRowsFrom, ih]

/-- Rows built for a pair all satisfy the pair key, so filtering by it is
the identity. -/
theorem filter_pairKey_mkRowsFrom (idx doc : String) (bnd v : Nat) :
    ∀ (i : Nat) (recs : List (List (String × Json))),
      (mkRowsFrom idx doc bnd v i recs).filter (fun r => pairKey r doc bnd) =
        mkRowsFrom idx doc bnd v i recs := by
  intro i recs
  induction recs generalizing i with
  | nil => rfl
  | cons fs rest ih =>
    have hk : pairKey ⟨idx, doc, bnd, i, v, fs⟩ doc bnd = true := by
      simp [pairKey]
    rw [mkRowsFrom, List.filter_cons, if_pos hk, ih]

/-- After `applyCommit`, the pair's rows are exactly the newly committed
set. -/
theorem rowsFor_applyCommit (s : EngineState) (idx doc : String) (bnd v : Nat)
    (recs : List (List (String × Json))) :
    rowsFor (applyCommit s idx doc bnd v recs) doc bnd = mkRows idx doc bnd v recs := by
  unfold rowsFor applyCommit mkRows
  rw [List.filter_append, filter_not_filter (fun r => pairKey r doc bnd) s.rows,
    filter_pairKey_mkRowsFrom]
  rfl

/-- After `applyCommit`, the pair's fence marker is the committed
version. -/
theorem fenceLookup_applyCommit (s : EngineState) (idx doc : String) (bnd v : Nat)
    (recs : List (List (String × Json))) :
    fenceLookup (applyCommit s idx doc bnd v recs).fence doc bnd = some v := by
  simp [fenceLookup, applyCommit, List.find?]

/-- Characterize a successful commit: the resulting state is the atomic
replacement, and the record set was nonempty. -/
theorem commit_applied {s s' : EngineState} {idx doc : String} {bnd v : Nat}
    {status : BindingStatus} {recs : List (List (String × Json))}
    (h : commit s idx doc bnd v status recs = (.applied, s')) :
    s' = applyCommit s idx doc bnd v recs ∧ recs ≠ [] := by
  unfold commit at h
  split_ifs at h with h1 h2 h3
  · simp at h
  · simp at h
  · simp at h
  · rcases h with ⟨-, rfl⟩
    exact ⟨rfl, by simpa [List.isEmpty_iff] using h3⟩

/-- A document event handled to `applied` went through the commit path. -/
theorem handle_applied {s s' : EngineState} {b : BindingDef} {idx : IndexDef}
    {d : Document} {output : TransformOutput}
    (h : handle_document_event s b idx d output = (.applied, s')) :
    commit s idx.index_id d.document_id b.binding_id d.updated_at b.status
      (map_output b idx output) = (.applied, s') := by
  unfold handle_document_event at h
  split_ifs at h with h1 h2
  · exact h
  · simp at h
  · simp at h

/-- `filterMap` over a list on which `f` always succeeds keeps every
element. -/
theorem length_filterMap_of_isSome {f : α → Option β} :
    ∀ {l : List α}, (∀ a ∈ l, (f a).isSome = true) →
      (l.filterMap f).length = l.length := by
  intro l
  induction l with
  | nil => intro _; rfl
  | cons x xs ih =>
    intro h
    have hx := h x (List.mem_cons_self x xs)
    rcases Option.isSome_iff_exists.mp hx with ⟨b, hb⟩
    rw [List.filterMap_cons, hb, List.length_cons,
      ih (fun a ha => h a (List.mem_cons_of_mem x ha)), List.length_cons]

/-- `mkDraftsFrom` yields one draft per record. -/
theorem length_mkDraftsFrom (doc : String) (bnd : Nat) :
    ∀ (i : Nat) (recs : List (List (String × Json))),
      (mkDraftsFrom doc bnd i recs).length = recs.length := by
  intro i recs
  induction recs generalizing i with
  | nil => rfl
  | cons fs rest ih => simp [mkDraftsFrom, ih]

/-- Every draft built by `mkDraftsFrom` carries the pair's keys. -/
theorem mem_mkDraftsFrom {doc : String} {bnd : Nat} :
    ∀ {i : Nat} {recs : List (List (String × Json))} {dr : IndexRecordDraft},
      dr ∈ mkDraftsFrom doc bnd i recs →
      dr.document_id = doc ∧ dr.binding_id = bnd := by
  intro i recs
  induction recs generalizing i with
  | nil => intro dr h; cases h
  | cons fs rest ih =>
    intro dr h
    cases h with
    | head => exact ⟨rfl, rfl⟩
    | tail _ h => exact ih h

/-- The ordinals of `mkDraftsFrom` starting at `i` are `i, i+1, ...`. -/
theorem map_ordinal_mkDraftsFrom (doc : String) (bnd : Nat) :
    ∀ (i : Nat) (recs : List (List (String × Json))),
      (mkDraftsFrom doc bnd i recs).map (fun dr => dr.ordinal) =
        List.range' i recs.length := by
  intro i recs
  induction recs generalizing i with
  | nil => rfl
  | cons fs rest ih => simp [mkDraftsFrom, List.range'_succ, ih]

/-- An invocation with at least one record commits at least one row. -/
theorem mkRows_eq_nil {idx doc : String} {bnd v : Nat}
    {recs : List (List (String × Json))} (h : mkRows idx doc bnd v recs = []) :
    recs = [] := by
  cases recs with
  | nil => rfl
  | cons fs rest => simp [mkRows, mkRowsFrom] at h

/-- C1: for a (document, binding) pair whose binding is `ON` and whose
filter matches (both implied by the event being handled to `applied`), once
the scheduled jobs have settled, exactly one current IndexRecord set exists
for the pair: re-running the binding for the same document (after a
document update) leaves the pair's rows exactly equal to the latest
invocation's set — all rows carry the latest source version, the prior set
is replaced in place rather than accumulated, and the set is never
empty. -/
theorem spec_c1 (s s₁ s₂ : EngineState) (b : BindingDef) (idx : IndexDef)
    (d₁ d₂ : Document) (out₁ out₂ : TransformOutput)
    (hdoc : d₂.document_id = d₁.document_id)
    (_hprior : handle_document_event s b idx d₁ out₁ = (.applied, s₁))
    (h2 : handle_document_event s₁ b idx d₂ out₂ = (.applied, s₂)) :
    rowsFor s₂ d₁.document_id b.binding_id =
      mkRows idx.index_id d₁.document_id b.binding_id d₂.updated_at
        (map_output b idx out₂) ∧
    rowsFor s₂ d₁.document_id b.binding_id ≠ [] ∧
    (∀ r ∈ rowsFor s₂ d₁.document_id b.binding_id, r.version = d₂.updated_at) := by
  have hc₂ := commit_applied (handle_applied h2)
  rcases hc₂ with ⟨rfl, hne⟩
  rw [hdoc] at *
  refine ⟨rowsFor_applyCommit .., ?_, ?_⟩
  · rw [rowsFor_applyCommit]
    intro hnil
    exact hne (mkRows_eq_nil hnil)
  · rw [rowsFor_applyCommit]
    intro r hr
    exact (mem_mkRowsFrom hr).2.2.2

/-- The word-count index of the spec's `bios` scenario (section 8). -/
def countIndex : IndexDef :=
  ⟨"bios_counts", [("count", ⟨"int", false⟩)]⟩

/-- The `bios` scenario binding: null filter, `word_counter` transformer,
`bios_counts` index. -/
def countBinding : BindingDef :=
  ⟨3, "bios", "text.counter.word_counter", "bios_counts", none, none, .ON⟩

/-- The `bios` scenario document at its first version. -/
def helloDoc1 : Document :=
  ⟨"D", "bios", "hello world", .obj [], 1⟩

/-- The `bios` scenario document after the content update. -/
def helloDoc2 : Document :=
  ⟨"D", "bios", "hello world again", .obj [], 2⟩

/-- Count the whitespace-separated words of a string. -/
def countWords (s : String) : Nat :=
  ((splitStr s ' ').filter (fun w => !(w == ""))).length

/-- Modelled from the spec (section 8): the `word_counter` transformer
returns a single `{count: int}` record. -/
def word_counter (d : Document) : TransformOutput :=
  .single [("count", .scalar (.num (countWords d.content)))]

/-- The engine state after handling the first `bios` scenario event from an
empty store. -/
def helloState1 : EngineState :=
  (handle_document_event ⟨[], []⟩ countBinding countIndex helloDoc1
    (word_counter helloDoc1)).2

/-- The engine state after handling the update event of the `bios`
scenario. -/
def helloState2 : EngineState :=
  (handle_document_event helloState1 countBinding countIndex helloDoc2
    (word_counter helloDoc2)).2

theorem spec_c1_witness :
    rowsFor helloState2 "D" 3 =
      mkRows "bios_counts" "D" 3 2
        (map_output countBinding countIndex (word_counter helloDoc2)) ∧
    rowsFor helloState2 "D" 3 ≠ [] ∧
    (∀ r ∈ rowsFor helloState2 "D" 3, r.version = 2) :=
  spec_c1 ⟨[], []⟩ helloState1 helloState2 countBinding countIndex
    helloDoc1 helloDoc2 (word_counter helloDoc1) (word_counter helloDoc2)
    rfl rfl rfl

/-- C2: commit order for a pair is fenced by source version, not wall-clock
completion order.  If the invocation at version `v₂` commits first, the
late commit of the older invocation `v₁ < v₂` is rejected, leaves the state
untouched, and `v₂`'s records are not overwritten. -/
theorem spec_c2 (s s₂ : EngineState) (idx doc : String) (bnd v₁ v₂ : Nat)
    (recs₁ recs₂ : List (List (String × Json)))
    (hv : v₁ < v₂)
    (h : commit s idx doc bnd v₂ .ON recs₂ = (.applied, s₂)) :
    commit s₂ idx doc bnd v₁ .ON recs₁ = (.staleRejected, s₂) ∧
    rowsFor s₂ doc bnd = mkRows idx doc bnd v₂ recs₂ := by
  rcases commit_applied h with ⟨rfl, -⟩
  constructor
  · have hst : stale (applyCommit s idx doc bnd v₂ recs₂).fence doc bnd v₁ = true := by
      unfold stale
      rw [fenceLookup_applyCommit]
      simpa using Nat.le_of_lt hv
    unfold commit
    rw [if_neg (by decide : ¬(BindingStatus.ON = BindingStatus.OFF)), if_pos hst]
  · exact rowsFor_applyCommit ..

theorem spec_c2_witness :
    commit helloState1 "bios_counts" "D" 3 0 .ON
        [[("count", Json.scalar (.num 99))]] = (.staleRejected, helloState1) ∧
    rowsFor helloState1 "D" 3 =
      mkRows "bios_counts" "D" 3 1
        (map_output countBinding countIndex (word_counter helloDoc1)) := by
  have h := spec_c2 ⟨[], []⟩ helloState1 "bios_counts" "D" 3 0 1
    [[("count", Json.scalar (.num 99))]]
    (map_output countBinding countIndex (word_counter helloDoc1))
    (by decide) rfl
  exact h

/-- C4: if the binding has been toggled `OFF` by the time an in-flight
transform job's result reaches the engine, the result is never committed:
the outcome is a discard, the whole state (hence the pair's IndexRecord
count) is exactly what it was at the toggle, and the binding's previously
committed IndexRecords are not deleted. -/
theorem spec_c4 (s : EngineState) (idx doc : String) (bnd v : Nat)
    (recs : List (List (String × Json))) :
    commit s idx doc bnd v .OFF recs = (.discardedOff, s) ∧
    (commit s idx doc bnd v .OFF recs).2.rows = s.rows ∧
    rowsFor (commit s idx doc bnd v .OFF recs).2 doc bnd = rowsFor s doc bnd := by
  refine ⟨rfl, rfl, rfl⟩

/-- C5: after `cleanup_document` completes for a deleted document, no
IndexRecord in any index of any binding references that document, and the
invariant that records reference only live documents is re-established:
whatever set of live document ids covered the rows before, the remaining
rows reference only those ids minus the deleted one. -/
theorem spec_c5 (s : EngineState) (doc : String) :
    (∀ r ∈ (cleanup_document s doc).rows, r.document_id ≠ doc) ∧
    (∀ live : List String, (∀ r ∈ s.rows, r.document_id ∈ live) →
      ∀ r ∈ (cleanup_document s doc).rows,
        r.document_id ∈ live ∧ r.document_id ≠ doc) := by
  have hne : ∀ r ∈ (cleanup_document s doc).rows, r.document_id ≠ doc := by
    intro r hr
    have h := (List.mem_filter.mp hr).2
    simpa using h
  refine ⟨hne, ?_⟩
  intro live hlive r hr
  exact ⟨hlive r (List.mem_filter.mp hr).1, hne r hr⟩

theorem spec_c5_witness :
    (∀ r ∈ (cleanup_document helloState2 "D").rows, r.document_id ≠ "D") ∧
    ((∀ r ∈ helloState2.rows, r.document_id ∈ ["D", "E"]) →
      ∀ r ∈ (cleanup_document helloState2 "D").rows,
        r.document_id ∈ ["D", "E"] ∧ r.document_id ≠ "D") :=
  ⟨(spec_c5 helloState2 "D").1, (spec_c5 helloState2 "D").2 ["D", "E"]⟩

/-- C6: a null filter matches every document, so a binding whose filter
field is null applies its transformer to every document of the bound
collection (its backfill pass keeps every document). -/
theorem spec_c6 :
    (∀ d : Document, filterMatches none d = true) ∧
    (∀ (docs : List Document) (b : BindingDef), b.docFilter = none →
      backfill docs b = docs) := by
  refine ⟨fun d => rfl, ?_⟩
  intro docs b hb
  unfold backfill
  rw [hb]
  exact List.filter_true docs

theorem spec_c6_witness :
    filterMatches none helloDoc1 = true ∧
    backfill [helloDoc1, helloDoc2] countBinding = [helloDoc1, helloDoc2] :=
  ⟨spec_c6.1 helloDoc1, spec_c6.2 [helloDoc1, helloDoc2] countBinding rfl⟩

/-- C7: filter evaluation is total by construction (every match of
`evalCondition` returns a boolean; no exception can reach the caller), a
condition whose dotted field path does not resolve evaluates to non-match
except for the explicit presence test, and a comparison operator applied
to mismatched types fails closed to non-match. -/
theorem spec_c7 :
    (∀ (doc : Document) (c : FilterCondition),
      resolveField doc c.field = none → c.operation ≠ .present →
      evalCondition doc c = false) ∧
    (∀ (doc : Document) (c : FilterCondition) (v : Json),
      resolveField doc c.field = some v → isCompareOp c.operation = true →
      comparableVals v c.value = false → evalCondition doc c = false) := by
  constructor
  · intro doc c hres hop
    unfold evalCondition
    rw [hres]
    cases hc : c.operation <;> simp_all
  · intro doc c v hres hcmp hmis
    have hop : ¬(c.operation = .present) := by
      intro h
      rw [h] at hcmp
      simp [isCompareOp] at hcmp
    simp only [evalCondition, hres]
    rw [if_neg hop, if_pos (by rw [hcmp, hmis]; rfl)]

/-- A document with no metadata fields, used to exercise unresolvable
paths. -/
def bareDoc : Document :=
  ⟨"B", "c", "text", .obj [], 5⟩

/-- A condition over a path that does not resolve in `bareDoc`. -/
def missingCond : FilterCondition :=
  ⟨"meta.lang", .equals, .scalar (.str "python"), false⟩

/-- A document carrying a string `meta.lang`, used to exercise a type
mismatch. -/
def langDoc : Document :=
  ⟨"A", "c", "text", .obj [("lang", .scalar (.str "python"))], 5⟩

/-- A numeric comparison against the string-valued `meta.lang`. -/
def mismatchCond : FilterCondition :=
  ⟨"meta.lang", .lessThan, .scalar (.num 3), false⟩

theorem spec_c7_witness :
    evalCondition bareDoc missingCond = false ∧
    evalCondition langDoc mismatchCond = false :=
  ⟨spec_c7.1 bareDoc missingCond rfl (by decide),
   spec_c7.2 langDoc mismatchCond (.scalar (.str "python")) rfl rfl rfl⟩

/-- A document of the tutorial's non-empty `bios` collection
(`src/docs/docs/tutorial.md`). -/
def taylorDoc : Document :=
  ⟨"c1090c0f", "bios", "Taylor Swift is a singer known for her songwriting.",
    .obj [], 1⟩

/-- The tutorial's `bios` collection contents at binding-creation time. -/
def biosDocs : List Document :=
  [taylorDoc]

/-- C3 as stated is false on the recorded behavior: creating a binding over
the non-empty `bios` collection returns the binding with status `ON`, not
`PENDING` (`src/docs/docs/tutorial.md` prints `status=ON` at creation;
`src/unnamed/part_018` records the `PENDING`-state backfill as future
work). -/
theorem spec_c3_counterexample :
    biosDocs.length ≠ 0 ∧
    (create_binding biosDocs 2 "bios" "text.embeddings.minilm" "bios_index"
        none).1.status ≠ BindingStatus.PENDING := by
  exact ⟨by decide, by decide⟩

/-- C3 amended: when a binding is created, the backfill pass over the
collection runs synchronously during creation — jobs are run for exactly
the filter-matching documents — and the binding observed at creation time
has status `ON` (the `PENDING`-while-backfill state is recorded as future
work, not current behavior). -/
theorem spec_c3 (docs : List Document) (bid : Nat) (cid tid iid : String)
    (flt : Option DocFilter) :
    (create_binding docs bid cid tid iid flt).1.status = .ON ∧
    (∀ d ∈ docs, filterMatches flt d = true →
      d ∈ (create_binding docs bid cid tid iid flt).2) ∧
    (∀ d ∈ (create_binding docs bid cid tid iid flt).2,
      d ∈ docs ∧ filterMatches flt d = true) := by
  refine ⟨rfl, ?_, ?_⟩
  · intro d hd hm
    exact List.mem_filter.mpr ⟨hd, hm⟩
  · intro d hd
    exact List.mem_filter.mp hd

theorem spec_c3_witness :
    (create_binding biosDocs 2 "bios" "text.embeddings.minilm" "bios_index"
        none).1.status = .ON ∧
    taylorDoc ∈ (create_binding biosDocs 2 "bios" "text.embeddings.minilm"
        "bios_index" none).2 :=
  ⟨(spec_c3 biosDocs 2 "bios" "text.embeddings.minilm" "bios_index" none).1,
   (spec_c3 biosDocs 2 "bios" "text.embeddings.minilm" "bios_index" none).2.1
     taylorDoc (List.mem_cons_self taylorDoc []) rfl⟩

/-- The index of the C8 fan-out scenario, with one required field and one
optional field (`src/docs/docs/tutorials/custom-transformers.md`). -/
def commentIndex : IndexDef :=
  ⟨"github_code_comments",
    [("comment_text", ⟨"string", false⟩), ("comment_meta", ⟨"object", true⟩)]⟩

/-- The binding of the C8 fan-out scenario. -/
def commentBinding : BindingDef :=
  ⟨7, "github_repos", "code.extract_comments.v1", "github_code_comments",
    none, none, .ON⟩

/-- A transformer output record that lacks the required `comment_text`
field. -/
def junkRecord : List (String × Json) :=
  [("junk", Json.null)]

/-- C8 as stated is false on the mapper contract: a record missing a field
the index schema declares required is marked invalid and skipped (section
4.3), so a transformer returning 1 such record yields 0 IndexRecords, not
1. -/
theorem spec_c8_counterexample :
    [junkRecord].length = 1 ∧
    (draftsFor "doc1" 7
        (map_output commentBinding commentIndex (.many [junkRecord]))).length ≠ 1 := by
  exact ⟨rfl, by decide⟩

/-- C8 amended: provided each returned record carries every field the index
schema declares required, a transformer returning N records for one
document yields exactly N IndexRecords, each tagged with that document's id
and the producing binding's id, with pairwise-distinct record ordinals
(distinct identities) sharing the same document reference. -/
theorem spec_c8 (b : BindingDef) (idx : IndexDef) (doc : String) (bnd : Nat)
    (records : List (List (String × Json)))
    (hvalid : ∀ rec ∈ records, (projectRecord b idx rec).isSome = true) :
    (draftsFor doc bnd (map_output b idx (.many records))).length = records.length ∧
    (∀ dr ∈ draftsFor doc bnd (map_output b idx (.many records)),
      dr.document_id = doc ∧ dr.binding_id = bnd) ∧
    ((draftsFor doc bnd (map_output b idx (.many records))).map
      (fun dr => dr.ordinal)).Nodup := by
  refine ⟨?_, ?_, ?_⟩
  · rw [draftsFor, length_mkDraftsFrom]
    exact length_filterMap_of_isSome hvalid
  · intro dr hdr
    exact mem_mkDraftsFrom hdr
  · rw [draftsFor, map_ordinal_mkDraftsFrom]
    exact List.nodup_range' 0 _ 1 (by decide)

/-- A valid two-record fan-out output (each record carries the required
`comment_text`), mirroring `get_comments` in
`src/docs/docs/tutorials/custom-transformers.md`. -/
def commentRecords : List (List (String × Json)) :=
  [[("comment_text", .scalar (.str "my comment")),
    ("comment_meta", .obj [("line_no", .scalar (.num 1))])],
   [("comment_text", .scalar (.str "my docstring"))]]

theorem spec_c8_witness :
    (draftsFor "doc1" 7
      (map_output commentBinding commentIndex (.many commentRecords))).length =
      commentRecords.length ∧
    ((draftsFor "doc1" 7
      (map_output commentBinding commentIndex (.many commentRecords))).map
      (fun dr => dr.ordinal)).Nodup :=
  ⟨(spec_c8 commentBinding commentIndex "doc1" 7 commentRecords
      (by decide)).1,
   (spec_c8 commentBinding commentIndex "doc1" 7 commentRecords
      (by decide)).2.2⟩

/-- C9: the synchronous transform-test path accepts an ad-hoc document
supplied as a plain content-plus-meta mapping that is stored in no
collection, and — whenever the transformer id resolves — returns a mapping
containing both a task id and the transformer's result computed on that
ad-hoc document.  No binding, index, or stored collection membership
appears in the call at all. -/
theorem spec_c9 (reg : Registry) (tid : String)
    (f : Document → TransformOutput) (content : String) (meta : Json)
    (h : registryLookup reg tid = some f) :
    transform_document reg tid content meta =
      some { task_id := "task-" ++ tid,
             result := f (adHocDocument content meta) } := by
  unfold transform_document
  rw [h]

/-- A registry holding the tutorial's word-count transformer. -/
def tutorialRegistry : Registry :=
  [("text.counter.word_counter", word_counter)]

theorem spec_c9_witness :
    transform_document tutorialRegistry "text.counter.word_counter"
        "hello world" Json.null =
      some { task_id := "task-text.counter.word_counter",
             result := word_counter (adHocDocument "hello world" Json.null) } :=
  spec_c9 tutorialRegistry "text.counter.word_counter" word_counter
    "hello world" Json.null rfl

/-- C10: every row returned by an index query carries the originating
document id, a record identity, the source document's content, and a
numeric distance; the rows come back sorted in ascending order of distance;
and when a limit `k` is given, at most `k` rows are returned. -/
theorem spec_c10 (dist : IndexRecordRow → Int) (docStore : List Document)
    (s : EngineState) (iid : String) (k : Nat) :
    (query_index dist docStore s iid k).length ≤ k ∧
    List.Sorted distLE (query_index dist docStore s iid k) ∧
    (∀ q ∈ query_index dist docStore s iid k,
      ∃ r ∈ s.rows, ∃ d ∈ docStore,
        r.index_id = iid ∧ d.document_id = r.document_id ∧
        q.document_id = r.document_id ∧ q.content = d.content ∧
        q.index_record_id = recordIdOf r ∧ q.distance = dist r) := by
  refine ⟨List.length_take_le .., ?_, ?_⟩
  · exact List.Pairwise.sublist (List.take_sublist ..)
      (List.sorted_insertionSort distLE _)
  · intro q hq
    have hq' : q ∈ List.insertionSort distLE
        ((s.rows.filter (fun r => r.index_id == iid)).filterMap
          (fun r => (docStore.find? (fun d => d.document_id == r.document_id)).map
            (fun d => mkQueryResult dist r d))) :=
      (List.take_sublist ..).subset hq
    rw [List.mem_insertionSort] at hq'
    rcases List.mem_filterMap.mp hq' with ⟨r, hr, hfr⟩
    rcases List.mem_filter.mp hr with ⟨hrmem, hriid⟩
    rcases Option.map_eq_some'.mp hfr with ⟨d, hfind, hmk⟩
    refine ⟨r, hrmem, d, List.mem_of_find?_eq_some hfind, ?_, ?_, ?_⟩
    · exact beq_iff_eq.mp hriid
    · have hp := List.find?_some hfind
      simpa using hp
    · rw [← hmk]
      exact ⟨rfl, rfl, rfl, rfl⟩

/-- A committed embedding row used to exercise the query path. -/
def qRow : IndexRecordRow :=
  ⟨"bios_index", "A", 2, 0, 1, []⟩

/-- The source document of `qRow`. -/
def qDoc : Document :=
  ⟨"A", "bios", "Taylor Swift is a singer.", .obj [], 1⟩

/-- An engine state holding the single row `qRow`. -/
def qState : EngineState :=
  ⟨[qRow], []⟩

/-- A concrete distance function for the query witness. -/
def qDist : IndexRecordRow → Int :=
  fun r => (r.ordinal : Int)

/-- The query row produced for `qRow`/`qDoc`. -/
def qRes : QueryResult :=
  mkQueryResult qDist qRow qDoc

theorem spec_c10_witness :
    (query_index qDist [qDoc] qState "bios_index" 3).length ≤ 3 ∧
    (∃ r ∈ qState.rows, ∃ d ∈ [qDoc],
      r.index_id = "bios_index" ∧ d.document_id = r.document_id ∧
      qRes.document_id = r.document_id ∧ qRes.content = d.content ∧
      qRes.index_record_id = recordIdOf r ∧ qRes.distance = qDist r) :=
  ⟨(spec_c10 qDist [qDoc] qState "bios_index" 3).1,
   (spec_c10 qDist [qDoc] qState "bios_index" 3).2.2 qRes
     (by
       have hq : query_index qDist [qDoc] qState "bios_index" 3 = [qRes] := rfl
       rw [hq]
       exact List.mem_singleton_self qRes)⟩
